import Mathlib

/-!
Verification of the core of the league-skinset-finder repository.

The enumerator `resolve_all_champ_combinations` and the results pipeline are
embedded from `src/components/results_table.rs`; the top-level application
state machine (`App`, `Msg`, `App.update`) is embedded from
`src/components.rs`.  Rust panics (`unreachable!`, `unimplemented!`, and
out-of-bounds indexing) are modelled as `Except.error` values, so fallible
code is explicit.  The lane enumeration and the skinset index live in
`src/lanes.rs` and `src/skinsets.rs`, which are not part of the sources at
hand; they are modelled from the specification and marked as such.
-/

namespace LeagueSkinsetFinder

/-- Modelled from the spec: the `Lane` enumeration of `src/lanes.rs` is not
among the sources.  Section 3 of the spec describes it as a finite
enumeration Top, Jungle, Mid, Bottom, Support of cardinality 5; iteration
over a `BitFlags<Lane>` set visits set members in this declaration order. -/
inductive Lane where
  | top
  | jungle
  | mid
  | bottom
  | support
deriving DecidableEq, Repr

/-- A champion identifier (`AttrValue` in the Rust sources): an interned
text identifier compared by value. -/
abbrev Champ := String

/-- A skinset identifier (`AttrValue` in the Rust sources). -/
abbrev Skinset := String

/-- `PlayerRecord` from `src/components.rs`.  The champion list is stored
behind `Rc<RefCell<...>>` in Rust purely for UI sharing; its value is a
sequence of (champion, lane set) pairs, with the lane set modelled as the
list of lanes in `BitFlags` iteration order. -/
structure PlayerRecord where
  exclude : Bool
  name : Option String
  champs : List (Champ × List Lane)
deriving Repr, DecidableEq

/-- `PlayerRecord::new` from `src/components.rs`: given exclude flag,
empty name and champion list. -/
def PlayerRecord.new (exclude : Bool) : PlayerRecord :=
  { exclude := exclude, name := none, champs := [] }

/-- Failure conditions.  `panicked` models a Rust panic
(`unreachable!`, `unimplemented!`, or out-of-bounds indexing) with its
message; `invalidInput` is the named error of the spec error taxonomy
(section 7), included so that claims about it can be stated (the Rust
sources never produce it). -/
inductive EnumError where
  | invalidInput
  | panicked (msg : String)
deriving Repr, DecidableEq

/-- The panic message of the `unreachable!` arm of
`resolve_all_champ_combinations`. -/
def unreachableMsg : String :=
  "This function requires at least one champ in the slice to call"

/-- `resolve_all_champ_combinations` from `src/components/results_table.rs`.
Slice length 0 hits `unreachable!` (modelled as a panic error); length 1
emits one singleton assignment per (champ, lane) choice of the sole player,
champs in input order and lanes in iteration order; otherwise the tail
solutions for `players[1..]` are computed first and each head (champ, lane)
choice is prepended to every tail solution that uses neither that champion
nor that lane. -/
def resolve_all_champ_combinations :
    List PlayerRecord → Except EnumError (List (List (Champ × Lane)))
  | [] => Except.error (EnumError.panicked unreachableMsg)
  | [p] =>
    Except.ok (p.champs.flatMap (fun cl => cl.2.map (fun lane => [(cl.1, lane)])))
  | p :: q :: rest =>
    match resolve_all_champ_combinations (q :: rest) with
    | Except.error e => Except.error e
    | Except.ok others =>
      Except.ok (p.champs.flatMap (fun cl => cl.2.flatMap (fun lane =>
        others.filterMap (fun combo =>
          if (combo.any (fun x => decide (x.1 = cl.1)))
              || (combo.any (fun x => decide (x.2 = lane))) then none
          else some ((cl.1, lane) :: combo)))))

/-- All (champion, lane) choices of one player, written from the spec words
of the brute-force reference (section 8, Exhaustiveness): every champion
entry in input order, every lane of that entry in order. -/
def playerChoices (p : PlayerRecord) : List (Champ × Lane) :=
  p.champs.flatMap (fun cl => cl.2.map (fun lane => (cl.1, lane)))

/-- All tuples of per-player choices, one per player in roster order,
written from the spec words of the brute-force reference. -/
def allChoiceTuples : List PlayerRecord → List (List (Champ × Lane))
  | [] => [[]]
  | p :: rest =>
    (playerChoices p).flatMap (fun c => (allChoiceTuples rest).map (fun tail => c :: tail))

/-- The uniqueness filter of the brute-force reference: all champions
pairwise distinct and all lanes pairwise distinct. -/
def distinctChampsAndLanes (asn : List (Champ × Lane)) : Bool :=
  decide ((asn.map Prod.fst).Nodup) && decide ((asn.map Prod.snd).Nodup)

/-- The brute-force reference enumerator of the spec (section 8,
Exhaustiveness): enumerate every per-player (champion, lane) choice and
keep exactly the tuples with pairwise-distinct champions and
pairwise-distinct lanes. -/
def bruteForce (players : List PlayerRecord) : List (List (Champ × Lane)) :=
  (allChoiceTuples players).filter distinctChampsAndLanes

/-- Decision helper: does an enumerator result consist of the named
`invalidInput` error? -/
def isInvalidInputError (r : Except EnumError (List (List (Champ × Lane)))) : Bool :=
  match r with
  | Except.error EnumError.invalidInput => true
  | _ => false

/-- `Msg` from `src/components.rs` (the commented-out champ list messages
are omitted, as in the source). -/
inductive Msg where
  | playerNameUpdate (index : Nat) (newName : String)
  | playerToggle (index : Nat) (state : Bool)
  | addPlayer
  | removePlayer (playerIndex : Nat)
  | playerChampListUpdate
deriving Repr, DecidableEq

/-- `App` from `src/components.rs`: the list of players. -/
structure App where
  players : List PlayerRecord
deriving Repr, DecidableEq

/-- `App::create` from `src/components.rs`: one default player. -/
def App.create : App :=
  { players := [PlayerRecord.new false] }

/-- `App::update` from `src/components.rs`.  The Rust handler returns
`true` (re-render) in every non-panicking case, so only the state change is
modelled.  `PlayerNameUpdate` indexes `self.players[index]` (panic when out
of bounds); `PlayerToggle` is `unimplemented!()`; `AddPlayer` pushes a new
player when the current length is at most 5; `RemovePlayer` calls
`Vec::remove` (panic when the index is out of bounds) when the list is
non-empty. -/
def App.update (app : App) (msg : Msg) : Except EnumError App :=
  match msg with
  | Msg.playerNameUpdate index newName =>
    match app.players.get? index with
    | none => Except.error (EnumError.panicked "index out of bounds")
    | some p =>
      Except.ok { players := (app.players.set index
          ({ p with name := if newName = "" then none else some newName })) }
  | Msg.playerToggle _ _ => Except.error (EnumError.panicked "not implemented")
  | Msg.addPlayer =>
    Except.ok { players :=
      if app.players.length ≤ 5 then app.players ++ [PlayerRecord.new false]
      else app.players }
  | Msg.removePlayer playerIndex =>
    if app.players.length ≥ 1 then
      if playerIndex < app.players.length then
        Except.ok { players := app.players.eraseIdx playerIndex }
      else Except.error (EnumError.panicked "index out of bounds")
    else Except.ok app
  | Msg.playerChampListUpdate => Except.ok app

/-- Run a sequence of update messages from a state, stopping at the first
panic. -/
def App.runMsgs (app : App) : List Msg → Except EnumError App
  | [] => Except.ok app
  | m :: ms =>
    match App.update app m with
    | Except.error e => Except.error e
    | Except.ok app2 => App.runMsgs app2 ms

/-- Modelled from the spec: the `Skinsets` map of `src/skinsets.rs`
(`GLOBAL_SKINSETS_MAP`) is not among the sources.  Section 3 of the spec
describes it as an immutable mapping from champion identifier to the set of
skinset identifiers it belongs to; it is represented as an association
list. -/
def Skinsets : Type := List (Champ × List Skinset)

/-- Modelled from the spec: index lookup, where a champion absent from the
index is treated as having the empty set of skinsets (section 4.2). -/
def Skinsets.lookup : Skinsets → Champ → List Skinset
  | [], _ => []
  | (c, sks) :: rest, champ =>
    if c = champ then sks else Skinsets.lookup rest champ

/-- Modelled from the spec: `Skinsets::get_overlapping_skinsets` of
`src/skinsets.rs` is not among the sources.  Section 4.2: for each
(champion, lane) entry of the assignment look up the champion in the index
and intersect the lookups across all entries; a skinset is kept only when
it is present in every lookup. -/
def get_overlapping_skinsets (s : Skinsets) (combo : List (Champ × Lane)) :
    List Skinset :=
  match combo with
  | [] => []
  | (c, _) :: rest =>
    rest.foldl (fun acc x => acc.filter (fun t => decide (t ∈ Skinsets.lookup s x.1)))
      (Skinsets.lookup s c)

/-- The per-assignment skinset list of `ResultsTable::view`
(`src/components/results_table.rs` lines 116-123): the overlapping
skinsets of the assignment minus the excluded set. -/
def final_skinsets (s : Skinsets) (excluded : List Skinset)
    (combo : List (Champ × Lane)) : List Skinset :=
  (get_overlapping_skinsets s combo).filter (fun t => !(decide (t ∈ excluded)))

/-- The displayed-results pipeline of `ResultsTable::view`
(`src/components/results_table.rs` lines 104-128): enumerate all champ
combinations, pair each with its post-exclusion overlapping skinsets, and
keep the pairs whose skinset list is non-empty. -/
def resolve_displayed_comps (s : Skinsets) (excluded : List Skinset)
    (players : List PlayerRecord) :
    Except EnumError (List ((List (Champ × Lane)) × List Skinset)) :=
  match resolve_all_champ_combinations players with
  | Except.error e => Except.error e
  | Except.ok all =>
    Except.ok ((all.map (fun combo => (combo, final_skinsets s excluded combo))).filter
      (fun x => !x.2.isEmpty))

/-! ### Helper lemmas relating the enumerator to the brute-force reference -/

/-- Filtering a list of distinct-champ-and-lane tuples through the collision
check of the recursive case and prepending the head choice is the same as
prepending the head choice to every tuple and filtering for distinctness
afterwards. -/
lemma filter_filterMap_prepend (c : Champ) (l : Lane)
    (A : List (List (Champ × Lane))) :
    (A.filter distinctChampsAndLanes).filterMap (fun combo =>
        if (combo.any (fun x => decide (x.1 = c)))
            || (combo.any (fun x => decide (x.2 = l))) then none
        else some ((c, l) :: combo))
      = (A.map (fun combo => (c, l) :: combo)).filter distinctChampsAndLanes := by
  induction A with
  | nil => rfl
  | cons combo A ih =>
    have hfst : (combo.any (fun x => decide (x.1 = c)) = true) ↔
        c ∈ combo.map Prod.fst := by
      simp
    have hsnd : (combo.any (fun x => decide (x.2 = l)) = true) ↔
        l ∈ combo.map Prod.snd := by
      simp
    have hdcons : (distinctChampsAndLanes ((c, l) :: combo) = true) ↔
        (c ∉ combo.map Prod.fst ∧ l ∉ combo.map Prod.snd ∧
          distinctChampsAndLanes combo = true) := by
      simp only [distinctChampsAndLanes, List.map_cons, List.nodup_cons,
        Bool.and_eq_true, decide_eq_true_eq]
      tauto
    by_cases hd : distinctChampsAndLanes combo = true
    · by_cases hc : c ∈ combo.map Prod.fst
      · have h1 : combo.any (fun x => decide (x.1 = c)) = true := hfst.mpr hc
        have h2 : distinctChampsAndLanes ((c, l) :: combo) = false := by
          rw [Bool.eq_false_iff]
          intro h
          exact (hdcons.mp h).1 hc
        simp [List.filter_cons, List.filterMap_cons, hd, h1, h2, ih]
      · by_cases hl2 : l ∈ combo.map Prod.snd
        · have h1 : combo.any (fun x => decide (x.2 = l)) = true := hsnd.mpr hl2
          have h2 : distinctChampsAndLanes ((c, l) :: combo) = false := by
            rw [Bool.eq_false_iff]
            intro h
            exact (hdcons.mp h).2.1 hl2
          simp [List.filter_cons, List.filterMap_cons, hd, h1, h2, ih]
        · have h1 : combo.any (fun x => decide (x.1 = c)) = false := by
            rw [Bool.eq_false_iff]
            intro h
            exact hc (hfst.mp h)
          have h2 : combo.any (fun x => decide (x.2 = l)) = false := by
            rw [Bool.eq_false_iff]
            intro h
            exact hl2 (hsnd.mp h)
          have h3 : distinctChampsAndLanes ((c, l) :: combo) = true :=
            hdcons.mpr ⟨hc, hl2, hd⟩
          simp [List.filter_cons, List.filterMap_cons, hd, h1, h2, h3, ih]
    · have hd0 : distinctChampsAndLanes combo = false := Bool.eq_false_iff.mpr hd
      have h2 : distinctChampsAndLanes ((c, l) :: combo) = false := by
        rw [Bool.eq_false_iff]
        intro h
        exact hd (hdcons.mp h).2.2
      simp [List.filter_cons, List.filterMap_cons, hd0, h2, ih]

/-- Iterating over the (champion, lane) choices of a player is the nested
iteration over champion entries and then lanes. -/
lemma flatMap_playerChoices {β : Type} (p : PlayerRecord)
    (G : Champ × Lane → List β) :
    (playerChoices p).flatMap G
      = p.champs.flatMap (fun cl => cl.2.flatMap (fun lane => G (cl.1, lane))) := by
  unfold playerChoices
  simp [List.flatMap_assoc, List.flatMap_map]

/-- The brute-force reference on a single-player roster is the singleton
assignment list of the enumerator base case. -/
lemma bruteForce_singleton (p : PlayerRecord) :
    bruteForce [p]
      = p.champs.flatMap (fun cl => cl.2.map (fun lane => [(cl.1, lane)])) := by
  unfold bruteForce allChoiceTuples playerChoices
  simp [allChoiceTuples, List.filter_flatMap, List.flatMap_assoc,
    List.flatMap_map, distinctChampsAndLanes, List.filter_cons,
    List.nodup_cons]
  simp only [← List.map_eq_flatMap]

/-- The enumerator agrees with the brute-force reference on every non-empty
roster. -/
lemma resolve_cons_eq (p : PlayerRecord) (rest : List PlayerRecord) :
    resolve_all_champ_combinations (p :: rest) = Except.ok (bruteForce (p :: rest)) := by
  induction rest generalizing p with
  | nil =>
    rw [bruteForce_singleton p]
    rfl
  | cons q t ih =>
    have hqt := ih q
    have hmatch : resolve_all_champ_combinations (p :: q :: t)
        = Except.ok (p.champs.flatMap (fun cl => cl.2.flatMap (fun lane =>
            (bruteForce (q :: t)).filterMap (fun combo =>
              if (combo.any (fun x => decide (x.1 = cl.1)))
                  || (combo.any (fun x => decide (x.2 = lane))) then none
              else some ((cl.1, lane) :: combo))))) := by
      simp only [resolve_all_champ_combinations]
      rw [hqt]
    rw [hmatch]
    congr 1
    have hbq : bruteForce (q :: t)
        = (allChoiceTuples (q :: t)).filter distinctChampsAndLanes := rfl
    have hbp : bruteForce (p :: q :: t)
        = ((playerChoices p).flatMap (fun c =>
            (allChoiceTuples (q :: t)).map (fun tail => c :: tail))).filter
          distinctChampsAndLanes := rfl
    rw [hbq, hbp, List.filter_flatMap, flatMap_playerChoices]
    simp only [filter_filterMap_prepend]

/-- A roster containing a player with no candidates yields no choice
tuples at all. -/
lemma allChoiceTuples_eq_nil {players : List PlayerRecord} {p : PlayerRecord}
    (hp : p ∈ players) (hempty : p.champs = []) : allChoiceTuples players = [] := by
  induction players with
  | nil => cases hp
  | cons q rest ih =>
    rcases List.mem_cons.mp hp with h | h
    · subst h
      simp [allChoiceTuples, playerChoices, hempty]
    · simp [allChoiceTuples, ih h]

/-- Membership in the choice list of one player: the champion is one of the
player entries and the lane belongs to that entry. -/
lemma mem_playerChoices {p : PlayerRecord} {c : Champ × Lane} :
    c ∈ playerChoices p ↔ ∃ lanes, (c.1, lanes) ∈ p.champs ∧ c.2 ∈ lanes := by
  unfold playerChoices
  simp only [List.mem_flatMap, List.mem_map]
  constructor
  · rintro ⟨cl, hcl, lane, hlane, rfl⟩
    exact ⟨cl.2, hcl, hlane⟩
  · rintro ⟨lanes, hmem, hl⟩
    exact ⟨(c.1, lanes), hmem, c.2, hl, rfl⟩

/-- Membership in the brute-force choice tuples is positionwise membership
in the per-player choice lists. -/
lemma mem_allChoiceTuples {players : List PlayerRecord}
    {asn : List (Champ × Lane)} :
    asn ∈ allChoiceTuples players
      ↔ List.Forall₂ (fun p c => c ∈ playerChoices p) players asn := by
  induction players generalizing asn with
  | nil => simp [allChoiceTuples, List.forall₂_nil_left_iff]
  | cons p rest ih =>
    simp only [allChoiceTuples, List.mem_flatMap, List.mem_map]
    constructor
    · rintro ⟨c, hc, tail, htail, rfl⟩
      exact List.Forall₂.cons hc (ih.mp htail)
    · intro h
      cases h with
      | cons hc htail => exact ⟨_, hc, _, ih.mpr htail, rfl⟩

/-! ### Fixtures used by the concrete claim instances -/

def fixtureP1 : PlayerRecord :=
  { exclude := false, name := none,
    champs := [("A", [Lane.top]), ("B", [Lane.jungle])] }

def fixtureP2 : PlayerRecord :=
  { exclude := false, name := none,
    champs := [("A", [Lane.top]), ("C", [Lane.jungle])] }

def fixtureSingle : PlayerRecord :=
  { exclude := false, name := none,
    champs := [("A", [Lane.top, Lane.mid]), ("B", [Lane.jungle])] }

def fixtureX : PlayerRecord :=
  { exclude := false, name := none, champs := [("X", [Lane.top])] }

def fixtureY : PlayerRecord :=
  { exclude := false, name := none, champs := [("Y", [Lane.mid])] }

/-! ### Claim theorems -/

/-- Claim C1: for every non-empty roster, every assignment returned by
`resolve_all_champ_combinations` has pairwise-distinct champions,
pairwise-distinct lanes, one entry per player in roster order, and entry i
is a (champion, lane) pair drawn from player i candidate entries. -/
theorem resolved_assignments_valid (players : List PlayerRecord)
    (hne : players ≠ []) (out : List (List (Champ × Lane)))
    (hout : resolve_all_champ_combinations players = Except.ok out)
    (asn : List (Champ × Lane)) (hasn : asn ∈ out) :
    (asn.map Prod.fst).Nodup ∧ (asn.map Prod.snd).Nodup ∧
      asn.length = players.length ∧
      (∀ (i : Nat) (hi : i < players.length) (hj : i < asn.length),
        ∃ lanes, ((asn.get ⟨i, hj⟩).1, lanes) ∈ (players.get ⟨i, hi⟩).champs ∧
          (asn.get ⟨i, hj⟩).2 ∈ lanes) := by
  cases players with
  | nil => exact absurd rfl hne
  | cons p rest =>
    rw [resolve_cons_eq p rest] at hout
    injection hout with hout
    subst hout
    have hmem := List.mem_filter.mp hasn
    have hdist := hmem.2
    simp only [distinctChampsAndLanes, Bool.and_eq_true, decide_eq_true_eq]
      at hdist
    have hin := mem_allChoiceTuples.mp hmem.1
    have hget := List.forall₂_iff_get.mp hin
    refine ⟨hdist.1, hdist.2, hget.1.symm, ?_⟩
    intro i hi hj
    exact mem_playerChoices.mp (hget.2 i hi hj)

/-- Witness for C1 at a concrete one-player roster. -/
theorem resolved_assignments_valid_witness :
    (([fixtureX] : List PlayerRecord) ≠ [] ∧
      resolve_all_champ_combinations [fixtureX] = Except.ok [[("X", Lane.top)]] ∧
      [("X", Lane.top)] ∈ [[("X", Lane.top)]]) ∧
    (([("X", Lane.top)].map Prod.fst).Nodup ∧
      ([("X", Lane.top)].map Prod.snd).Nodup ∧
      ([("X", Lane.top)] : List (Champ × Lane)).length
        = ([fixtureX] : List PlayerRecord).length ∧
      (∀ (i : Nat) (hi : i < ([fixtureX] : List PlayerRecord).length)
          (hj : i < ([("X", Lane.top)] : List (Champ × Lane)).length),
        ∃ lanes,
          ((([("X", Lane.top)] : List (Champ × Lane)).get ⟨i, hj⟩).1, lanes)
            ∈ (([fixtureX] : List PlayerRecord).get ⟨i, hi⟩).champs ∧
          (([("X", Lane.top)] : List (Champ × Lane)).get ⟨i, hj⟩).2 ∈ lanes)) :=
  ⟨⟨by decide, rfl, by decide⟩,
    resolved_assignments_valid [fixtureX] (by decide) [[("X", Lane.top)]] rfl
      [("X", Lane.top)] (by decide)⟩

/-- Claim C2: on every non-empty roster the enumerator output equals, as a
sequence, the brute-force reference (all per-player choices filtered for
champion and lane uniqueness); in particular a roster containing a player
with an empty candidate list yields the empty output. -/
theorem enumerator_matches_brute_force (players : List PlayerRecord)
    (hne : players ≠ []) :
    resolve_all_champ_combinations players = Except.ok (bruteForce players) ∧
    (∀ p ∈ players, p.champs = [] →
      resolve_all_champ_combinations players = Except.ok []) := by
  cases players with
  | nil => exact absurd rfl hne
  | cons p rest =>
    refine ⟨resolve_cons_eq p rest, ?_⟩
    intro q hq hempty
    rw [resolve_cons_eq p rest]
    have hnil : allChoiceTuples (p :: rest) = [] :=
      allChoiceTuples_eq_nil hq hempty
    unfold bruteForce
    rw [hnil]
    rfl

/-- Witness for C2 at the two-player collision roster. -/
theorem enumerator_matches_brute_force_witness :
    (([fixtureP1, fixtureP2] : List PlayerRecord) ≠ []) ∧
    (resolve_all_champ_combinations [fixtureP1, fixtureP2]
        = Except.ok (bruteForce [fixtureP1, fixtureP2]) ∧
      (∀ p ∈ ([fixtureP1, fixtureP2] : List PlayerRecord), p.champs = [] →
        resolve_all_champ_combinations [fixtureP1, fixtureP2] = Except.ok [])) :=
  ⟨by decide, enumerator_matches_brute_force [fixtureP1, fixtureP2] (by decide)⟩

/-- Claim C3 counterexample: on the empty roster the enumerator hits the
`unreachable!` panic arm; it does not produce the named `invalidInput`
error of the spec error taxonomy. -/
theorem empty_roster_not_invalid_input :
    resolve_all_champ_combinations []
        = Except.error (EnumError.panicked unreachableMsg) ∧
    isInvalidInputError (resolve_all_champ_combinations []) = false :=
  ⟨rfl, rfl⟩

/-- Claim C3 (amended): calling the enumerator with an empty roster panics
with the documented unreachable message, never an empty success
sequence. -/
theorem empty_roster_panics :
    resolve_all_champ_combinations ([] : List PlayerRecord)
      = Except.error (EnumError.panicked unreachableMsg) := rfl

/-- Claim C4: the two-player collision fixture yields exactly the two
assignments [(A,Top),(C,Jungle)] and [(B,Jungle),(A,Top)], in this
order. -/
theorem two_player_collision_fixture :
    resolve_all_champ_combinations [fixtureP1, fixtureP2]
      = Except.ok [[("A", Lane.top), ("C", Lane.jungle)],
          [("B", Lane.jungle), ("A", Lane.top)]] := rfl

/-- Claim C5: the output order is the loop-nest order: head player
candidates in input order, then lanes in enumeration order, then the tail
solutions in their emitted order; the single-player base case iterates
candidates then lanes; on the single-player fixture the output is exactly
[(A,Top)], [(A,Mid)], [(B,Jungle)] in that order. -/
theorem enumeration_order :
    (∀ (p q : PlayerRecord) (t : List PlayerRecord)
        (tail : List (List (Champ × Lane))),
      resolve_all_champ_combinations (q :: t) = Except.ok tail →
      resolve_all_champ_combinations (p :: q :: t)
        = Except.ok (p.champs.flatMap (fun cl => cl.2.flatMap (fun lane =>
            tail.filterMap (fun combo =>
              if (combo.any (fun x => decide (x.1 = cl.1)))
                  || (combo.any (fun x => decide (x.2 = lane))) then none
              else some ((cl.1, lane) :: combo)))))) ∧
    (∀ p : PlayerRecord,
      resolve_all_champ_combinations [p]
        = Except.ok (p.champs.flatMap (fun cl =>
            cl.2.map (fun lane => [(cl.1, lane)])))) ∧
    resolve_all_champ_combinations [fixtureSingle]
      = Except.ok [[("A", Lane.top)], [("A", Lane.mid)], [("B", Lane.jungle)]] := by
  refine ⟨?_, fun p => rfl, rfl⟩
  intro p q t tail htail
  simp only [resolve_all_champ_combinations]
  rw [htail]

/-- Witness for C5 at a concrete two-player roster. -/
theorem enumeration_order_witness :
    resolve_all_champ_combinations [fixtureX, fixtureY]
      = Except.ok [[("X", Lane.top), ("Y", Lane.mid)]] := by
  have h := enumeration_order.1 fixtureX fixtureY [] [[("Y", Lane.mid)]] rfl
  rw [h]
  rfl

/-- Claim C6: the results pipeline maps every enumerated assignment to the
pair (assignment, overlap minus excluded) and keeps exactly the pairs with
a non-empty post-exclusion skinset list: an assignment appears in the
displayed results iff at least one shared, non-excluded skinset remains. -/
theorem pipeline_keeps_nonempty_overlaps (s : Skinsets)
    (excluded : List Skinset) (players : List PlayerRecord)
    (all : List (List (Champ × Lane)))
    (hall : resolve_all_champ_combinations players = Except.ok all) :
    resolve_displayed_comps s excluded players
      = Except.ok ((all.map (fun combo =>
            (combo, final_skinsets s excluded combo))).filter
          (fun x => !x.2.isEmpty)) ∧
    (∀ combo ∈ all,
      ((combo, final_skinsets s excluded combo)
          ∈ (all.map (fun combo2 =>
              (combo2, final_skinsets s excluded combo2))).filter
            (fun x => !x.2.isEmpty)
        ↔ final_skinsets s excluded combo ≠ [])) := by
  constructor
  · unfold resolve_displayed_comps
    rw [hall]
  · intro combo hcombo
    constructor
    · intro hmem
      have h2 := (List.mem_filter.mp hmem).2
      simpa using h2
    · intro hne2
      refine List.mem_filter.mpr ⟨List.mem_map.mpr ⟨combo, hcombo, rfl⟩, ?_⟩
      simpa using hne2

/-- Witness for C6 at a one-player roster and a two-entry index. -/
theorem pipeline_keeps_nonempty_overlaps_witness :
    (resolve_all_champ_combinations [fixtureX]
        = Except.ok [[("X", Lane.top)]]) ∧
    (resolve_displayed_comps [("X", ["S1", "S2"])] ["S1"] [fixtureX]
        = Except.ok (([[("X", Lane.top)]].map (fun combo =>
              (combo, final_skinsets [("X", ["S1", "S2"])] ["S1"] combo))).filter
            (fun x => !x.2.isEmpty)) ∧
      (∀ combo ∈ ([[("X", Lane.top)]] : List (List (Champ × Lane))),
        ((combo, final_skinsets [("X", ["S1", "S2"])] ["S1"] combo)
            ∈ (([[("X", Lane.top)]] : List (List (Champ × Lane))).map
                (fun combo2 =>
                  (combo2, final_skinsets [("X", ["S1", "S2"])] ["S1"] combo2))).filter
              (fun x => !x.2.isEmpty)
          ↔ final_skinsets [("X", ["S1", "S2"])] ["S1"] combo ≠ []))) :=
  ⟨rfl, pipeline_keeps_nonempty_overlaps [("X", ["S1", "S2"])] ["S1"]
    [fixtureX] [[("X", Lane.top)]] rfl⟩

/-- Claim C7: exclusion is monotone: enlarging the exclusion set shrinks
the post-exclusion overlap of any fixed assignment and index. -/
theorem exclusion_monotone (s : Skinsets) (combo : List (Champ × Lane))
    (e1 e2 : List Skinset) (hsub : ∀ x ∈ e1, x ∈ e2) :
    ∀ t ∈ final_skinsets s e2 combo, t ∈ final_skinsets s e1 combo := by
  intro t ht
  unfold final_skinsets at ht ⊢
  rcases List.mem_filter.mp ht with ⟨hover, hnot⟩
  refine List.mem_filter.mpr ⟨hover, ?_⟩
  simp only [Bool.not_eq_eq_eq_not, Bool.not_true, decide_eq_false_iff_not]
    at hnot ⊢
  intro h1
  exact hnot (hsub t h1)

/-- Witness for C7 at a concrete index, assignment and exclusion pair. -/
theorem exclusion_monotone_witness :
    (∀ x ∈ (["S9"] : List Skinset), x ∈ (["S9", "S1"] : List Skinset)) ∧
    "S2" ∈ final_skinsets [("A", ["S1", "S2"])] ["S9"] [("A", Lane.top)] :=
  ⟨by decide,
    exclusion_monotone [("A", ["S1", "S2"])] [("A", Lane.top)] ["S9"]
      ["S9", "S1"] (by decide) "S2" (by decide)⟩

/-- Claim C9: evaluation of `App::update` at the failing inputs: five
consecutive AddPlayer messages from the initial one-player state leave six
players (the guard is len at most 5, not strictly less), and one
RemovePlayer message from the initial state leaves zero players (the guard
is len at least 1, not strictly greater). -/
theorem app_update_bounds_violated :
    (App.runMsgs App.create (List.replicate 5 Msg.addPlayer)).map
        (fun a => a.players.length) = Except.ok 6 ∧
    (App.runMsgs App.create [Msg.removePlayer 0]).map
        (fun a => a.players.length) = Except.ok 0 :=
  ⟨rfl, rfl⟩

/-- Claim C10: handling a PlayerToggle message always hits the
`unimplemented!()` arm, modelled as a panic error, in every state and for
every payload; the toggle can never complete normally. -/
theorem player_toggle_panics (app : App) (i : Nat) (s : Bool) :
    App.update app (Msg.playerToggle i s)
      = Except.error (EnumError.panicked "not implemented") := rfl

/-- Witness for C10 at the initial state. -/
theorem player_toggle_panics_witness :
    App.update App.create (Msg.playerToggle 0 false)
      = Except.error (EnumError.panicked "not implemented") :=
  player_toggle_panics App.create 0 false

end LeagueSkinsetFinder
